import Mathlib

/-!
# Verification of the Limitless MCP server (`src/index.ts`)

A shallow embedding of the TypeScript source `src/index.ts` of the
`limitless-mcp-server` repository, together with theorems settling the
specification claims about it.

The program is a small adapter: a Remote API Gateway
(`makeLimitlessRequest`), a tool schema (`getLifelogsSchema`), one tool
handler (`getLifelogs`), and two client modes (`runClient`,
`runInteractiveClient`).  External JavaScript builtins
(`JSON.stringify`, `String(v)`, `URLSearchParams`, `JSON.parse`) are
embedded by faithful Lean definitions of their documented semantics on
the value domain the program uses; the MCP SDK client (not part of this
repository) is modelled from the spec where a claim depends on it.
-/

namespace Limitless

/-- JSON documents, as produced by `response.json()` and consumed by
`JSON.stringify`.  JavaScript numbers are modelled as integers: the
program never computes with them, it only passes them through, and every
claim under verification is independent of non-integral numerics. -/
inductive Json where
  | null : Json
  | bool (b : Bool) : Json
  | num (n : Int) : Json
  | str (s : String) : Json
  | arr (elems : List Json) : Json
  | obj (fields : List (String × Json)) : Json

/-- Decimal digits of a natural number, most significant first, appended
in front of `acc` — the semantics of JavaScript `String(n)` for a
nonnegative integral number.  The first argument is fuel (any bound
strictly above `n` is enough), making the definition structurally
recursive and so evaluable by the kernel. -/
def natDigitsAux : Nat → Nat → List Char → List Char
  | 0, _, acc => acc
  | fuel + 1, n, acc =>
      if n < 10 then Nat.digitChar n :: acc
      else natDigitsAux fuel (n / 10) (Nat.digitChar (n % 10) :: acc)

/-- JavaScript `String(n)` for a natural number. -/
def natToString (n : Nat) : String := ⟨natDigitsAux (n + 1) n []⟩

/-- JavaScript `String(n)` for an integral number. -/
def intToString : Int → String
  | Int.ofNat n => natToString n
  | Int.negSucc m => "-" ++ natToString (m + 1)

/-- The values that can sit in a field of the `params` record the
program passes around (`Record<string, unknown>` restricted to the
value domain of the schema): strings, booleans, numbers, plus the two
JavaScript absence markers `undefined` and `null`. -/
inductive JSVal where
  | undef : JSVal
  | null : JSVal
  | str (s : String) : JSVal
  | bool (b : Bool) : JSVal
  | num (n : Int) : JSVal
deriving Repr, DecidableEq

/-- The guard of the serialization loop in `makeLimitlessRequest`:
`value !== undefined && value !== null`. -/
def present : JSVal → Bool
  | JSVal.undef => false
  | JSVal.null => false
  | _ => true

/-- JavaScript `String(value)` on the value domain of the program. -/
def jsString : JSVal → String
  | JSVal.undef => "undefined"
  | JSVal.null => "null"
  | JSVal.str s => s
  | JSVal.bool true => "true"
  | JSVal.bool false => "false"
  | JSVal.num n => intToString n

/-- The query-string construction loop of `makeLimitlessRequest`
(lines 21–28 of `src/index.ts`): iterate over `Object.entries(params)`
in order and `qs.append(key, String(value))` exactly when
`value !== undefined && value !== null`.  The result is the content of
the `URLSearchParams` accumulator as an ordered list of
(key, value-string) pairs. -/
def buildQuery : List (String × JSVal) → List (String × String)
  | [] => []
  | (k, v) :: rest =>
      if present v then (k, jsString v) :: buildQuery rest else buildQuery rest

/-- An HTTP response as observed by the program through `fetch`:
its status code, its body as text (`response.text()`), and its body
parsed as JSON (`response.json()`). -/
structure HttpResponse where
  status : Nat
  bodyText : String
  bodyJson : Json

/-- `response.ok` per the Fetch standard: status in the inclusive range
200–299. -/
def responseOk (r : HttpResponse) : Bool :=
  decide (200 ≤ r.status) && decide (r.status ≤ 299)

/-- The response-handling half of `makeLimitlessRequest`
(lines 34–39 of `src/index.ts`): on `!response.ok` throw
`Error involving the status and the body text`; otherwise return
`await response.json()`.  The thrown error is embedded as the `Except`
error carrying the `error.message` string. -/
def makeLimitlessRequest (r : HttpResponse) : Except String Json :=
  if responseOk r then Except.ok r.bodyJson
  else Except.error ("Request failed: " ++ natToString r.status ++ " " ++ r.bodyText)

/-! ## `JSON.stringify(·, null, 2)`

The success branch of the tool handler serializes the fetched document
with `JSON.stringify(lifelogs, null, 2)`: two-space indentation, items
of non-empty arrays and objects each on their own line.  The renderer
below embeds that semantics, producing the character list of the
output. -/

/-- The escape of one character inside a JSON string literal, per
`JSON.stringify`: quote, backslash and the common control characters
get two-character escapes, other control characters get a `\u00XX`
escape, everything else is passed through. -/
def escapeChar (c : Char) : List Char :=
  if c = '"' then ['\\', '"']
  else if c = '\\' then ['\\', '\\']
  else if c = '\n' then ['\\', 'n']
  else if c = '\r' then ['\\', 'r']
  else if c = '\t' then ['\\', 't']
  else if c = '\x08' then ['\\', 'b']
  else if c = '\x0c' then ['\\', 'f']
  else if c.toNat < 32 then
    ['\\', 'u', '0', '0', Nat.digitChar (c.toNat / 16), Nat.digitChar (c.toNat % 16)]
  else [c]

/-- A JSON string literal: quote, escaped characters, quote. -/
def quoteChars (s : String) : List Char :=
  '"' :: (s.data.map escapeChar).flatten ++ ['"']

/-- The indentation prefix at nesting depth `n` for an indent width of
2, as passed to `JSON.stringify`. -/
def indentChars (n : Nat) : List Char :=
  List.replicate (2 * n) ' '

/-- Join a list of rendered items with a separator, as
`JSON.stringify` does with `",\n"` between the items of an array or
object. -/
def sepJoin (sep : List Char) : List (List Char) → List Char
  | [] => []
  | [x] => x
  | x :: y :: xs => x ++ sep ++ sepJoin sep (y :: xs)

mutual

/-- `JSON.stringify(v, null, 2)` at nesting depth `ind`, as a character
list. -/
def renderChars : Nat → Json → List Char
  | _, Json.null => "null".data
  | _, Json.bool true => "true".data
  | _, Json.bool false => "false".data
  | _, Json.num n => (intToString n).data
  | _, Json.str s => quoteChars s
  | _, Json.arr [] => "[]".data
  | ind, Json.arr (x :: xs) =>
      '[' :: '\n' ::
        (sepJoin (",\n".data) (renderItems (ind + 1) (x :: xs)) ++
          '\n' :: (indentChars ind ++ [']']))
  | _, Json.obj [] => "\x7b\x7d".data
  | ind, Json.obj (f :: fs) =>
      '\x7b' :: '\n' ::
        (sepJoin (",\n".data) (renderFields (ind + 1) (f :: fs)) ++
          '\n' :: (indentChars ind ++ ['\x7d']))

/-- The items of an array, each rendered at depth `ind` behind its
indentation prefix. -/
def renderItems (ind : Nat) : List Json → List (List Char)
  | [] => []
  | x :: xs => (indentChars ind ++ renderChars ind x) :: renderItems ind xs

/-- The fields of an object, each rendered at depth `ind` behind its
indentation prefix as `"key": value`. -/
def renderFields (ind : Nat) : List (String × Json) → List (List Char)
  | [] => []
  | (k, v) :: fs =>
      (indentChars ind ++ (quoteChars k ++ (':' :: ' ' :: renderChars ind v))) ::
        renderFields ind fs

end

/-- `JSON.stringify(v, null, 2)` as a string. -/
def stringifyPretty (j : Json) : String := ⟨renderChars 0 j⟩

/-! ## Tool Result and the `getLifelogs` handler -/

/-- A Tool Result as returned by the handler: a single text content
item plus the error flag.  The success branch of the source returns no
`isError` field at all, which JavaScript consumers read as the falsy
`undefined`; it is embedded as `false`. -/
structure ToolResult where
  text : String
  isError : Bool
deriving Repr, DecidableEq

/-- The `getLifelogs` handler body (lines 64–71 of `src/index.ts`),
as a function of the Gateway outcome: the `try` block wraps a Gateway
success into a success-shaped Tool Result with the pretty-printed
document, and the `catch` block turns any Gateway failure with message
`msg` into an error-flagged Tool Result.  The handler is a total
function: every outcome yields a Tool Result, nothing escapes past the
handler boundary. -/
def getLifelogsHandler : Except String Json → ToolResult
  | Except.ok lifelogs =>
      { text := stringifyPretty lifelogs, isError := false }
  | Except.error msg =>
      { text := "Error fetching lifelogs: " ++ msg, isError := true }

/-- The handler composed with the Gateway: what the tool returns when
the remote API answers with `r`. -/
def handleGetLifelogs (r : HttpResponse) : ToolResult :=
  getLifelogsHandler (makeLimitlessRequest r)

/-! ## The `getLifelogsSchema` (zod) parameter schema

Lines 45–55 of `src/index.ts`.  Each schema field is embedded as a
parser from the optional JSON value supplied by the caller (`none` =
key absent or `undefined`) to the validated field value, failing on a
type mismatch exactly where zod would. -/

/-- The two values of `z.enum(['asc', 'desc'])`. -/
inductive Direction where
  | asc : Direction
  | desc : Direction
deriving Repr, DecidableEq

/-- The wire string of a `Direction` (the enum values are the strings
themselves). -/
def Direction.toStr : Direction → String
  | Direction.asc => "asc"
  | Direction.desc => "desc"

/-- `z.string().optional()`: absent stays absent, a string passes
through, anything else is rejected. -/
def zodOptionalString : Option Json → Except String (Option String)
  | none => Except.ok none
  | some (Json.str s) => Except.ok (some s)
  | some _ => Except.error "Expected string"

/-- `z.enum(['asc','desc']).optional().default('desc')`: absent becomes
the default `'desc'`; only the two enumerated strings are accepted. -/
def zodDirection : Option Json → Except String Direction
  | none => Except.ok Direction.desc
  | some (Json.str s) =>
      if s = "asc" then Except.ok Direction.asc
      else if s = "desc" then Except.ok Direction.desc
      else Except.error "Invalid enum value"
  | some _ => Except.error "Invalid enum value"

/-- `z.boolean().optional().default(true)`: absent becomes `true`; a
boolean passes through, anything else is rejected. -/
def zodBoolDefaultTrue : Option Json → Except String Bool
  | none => Except.ok true
  | some (Json.bool b) => Except.ok b
  | some _ => Except.error "Expected boolean"

/-- `z.number().optional()`: absent stays absent, a number passes
through, anything else is rejected. -/
def zodOptionalNumber : Option Json → Except String (Option Int)
  | none => Except.ok none
  | some (Json.num n) => Except.ok (some n)
  | some _ => Except.error "Expected number"

/-- The raw arguments of a `getLifelogs` call, one optional JSON value
per schema key (`none` = the caller omitted the key).  The source key
`end` is a Lean keyword and is embedded as `end'`. -/
structure RawArgs where
  timezone : Option Json := none
  date : Option Json := none
  start : Option Json := none
  end' : Option Json := none
  cursor : Option Json := none
  direction : Option Json := none
  includeMarkdown : Option Json := none
  includeHeadings : Option Json := none
  limit : Option Json := none

/-- The validated parameters the handler receives: the optional fields
stay optional, while the three default-bearing fields are always
populated. -/
structure LifelogParams where
  timezone : Option String
  date : Option String
  start : Option String
  end' : Option String
  cursor : Option String
  direction : Direction
  includeMarkdown : Bool
  includeHeadings : Bool
  limit : Option Int
deriving Repr, DecidableEq

/-- The whole `getLifelogsSchema` applied to a raw argument object —
the validation the MCP SDK performs before invoking the handler. -/
def getLifelogsSchema (a : RawArgs) : Except String LifelogParams := do
  let timezone ← zodOptionalString a.timezone
  let date ← zodOptionalString a.date
  let start ← zodOptionalString a.start
  let end' ← zodOptionalString a.end'
  let cursor ← zodOptionalString a.cursor
  let direction ← zodDirection a.direction
  let includeMarkdown ← zodBoolDefaultTrue a.includeMarkdown
  let includeHeadings ← zodBoolDefaultTrue a.includeHeadings
  let limit ← zodOptionalNumber a.limit
  return { timezone := timezone, date := date, start := start, end' := end',
           cursor := cursor, direction := direction,
           includeMarkdown := includeMarkdown,
           includeHeadings := includeHeadings, limit := limit }

/-- A still-absent optional string field of the validated params
object, as seen by `Object.entries` iteration (an omitted key and a key
holding `undefined` serialize identically under the `present` guard). -/
def optStrVal : Option String → JSVal
  | none => JSVal.undef
  | some s => JSVal.str s

/-- A still-absent optional number field of the validated params
object. -/
def optNumVal : Option Int → JSVal
  | none => JSVal.undef
  | some n => JSVal.num n

/-- `Object.entries(params)` for a validated params object: the nine
schema keys in declaration order with their JavaScript values.  This is
the record the handler passes to `makeLimitlessRequest`. -/
def paramsEntries (p : LifelogParams) : List (String × JSVal) :=
  [("timezone", optStrVal p.timezone),
   ("date", optStrVal p.date),
   ("start", optStrVal p.start),
   ("end", optStrVal p.end'),
   ("cursor", optStrVal p.cursor),
   ("direction", JSVal.str p.direction.toStr),
   ("includeMarkdown", JSVal.bool p.includeMarkdown),
   ("includeHeadings", JSVal.bool p.includeHeadings),
   ("limit", optNumVal p.limit)]

/-! ## Process startup and mode dispatch

Lines 9–14 and 148–169 of `src/index.ts`.  The API-key check runs at
module load, before any of `runServer`, `runClient`,
`runInteractiveClient` can be reached. -/

/-- What the process does right after load: exit with a diagnostic, or
enter one of the three run modes with the key in hand. -/
inductive MainAction where
  | exitError (code : Nat) (diagnostic : String) : MainAction
  | serverMode (apiKey : String) : MainAction
  | clientMode (apiKey : String) : MainAction
  | interactiveMode (apiKey : String) : MainAction
deriving Repr, DecidableEq

/-- Module load and mode dispatch: read `LIMITLESS_API_KEY` from the
environment; if it is absent (or empty — JavaScript `!key` is true for
the empty string too) print the diagnostic and exit 1 before anything
else; otherwise select the run mode from the single argument, with a
usage error for anything unrecognized. -/
def mainDispatch (env : List (String × String)) (argv2 : Option String) : MainAction :=
  match env.lookup "LIMITLESS_API_KEY" with
  | none => MainAction.exitError 1 "Missing LIMITLESS_API_KEY in environment variables"
  | some key =>
      if key = "" then
        MainAction.exitError 1 "Missing LIMITLESS_API_KEY in environment variables"
      else
        match argv2 with
        | some "server" => MainAction.serverMode key
        | some "client" => MainAction.clientMode key
        | some "interactive" => MainAction.interactiveMode key
        | _ => MainAction.exitError 1 "Usage: node build/index.js [server|client|interactive]"

/-! ## The client modes

Lines 80–146 of `src/index.ts`.  The MCP SDK `Client` itself is not
part of this repository; what the repository contributes is control
flow — which SDK calls run, in which order, and what happens to the
loop on a malformed input or a failed call.  The traces below embed
that control flow.  `JSON.parse` is a JavaScript builtin and is passed
in as a parameter `jsonParse` (returning `none` exactly on the inputs
it would throw on); the server's reply to a call is passed in as a
parameter `callTool`. -/

/-- One observable step of a client run. -/
inductive ClientAction where
  | connect : ClientAction
  | listTools : ClientAction
  | callToolAction (name : String) (args : Json) : ClientAction
  | printResult (response : ToolResult) : ClientAction
  | printCallError (message : String) : ClientAction
  | printInvalidJson : ClientAction
  | closeAction : ClientAction

/-- `runClient` (lines 80–106): connect, list tools, call
`getLifelogs` with `{}` inside a `try` whose `catch` prints the error,
then — on either branch — `await client.close()`. -/
def runClient (callTool : String → Json → Except String ToolResult) :
    List ClientAction :=
  [ClientAction.connect, ClientAction.listTools,
   ClientAction.callToolAction "getLifelogs" (Json.obj [])] ++
  (match callTool "getLifelogs" (Json.obj []) with
   | Except.ok response => [ClientAction.printResult response]
   | Except.error msg => [ClientAction.printCallError msg]) ++
  [ClientAction.closeAction]

/-- The argument string actually handed to `JSON.parse`:
`paramsInput || '\x7b\x7d'` — the empty answer is falsy in JavaScript,
so it is replaced by the text of the empty object. -/
def argumentsText (paramsInput : String) : String :=
  if paramsInput = "" then "\x7b\x7d" else paramsInput

/-- JavaScript `toLowerCase()` on the (ASCII) tool names the loop
compares: lower-case every character. -/
def jsToLower (s : String) : String := ⟨s.data.map Char.toLower⟩

/-- The two observable actions of one successful-parse loop iteration:
the tool call itself, then either the printed response or the printed
(caught) call error — lines 135–140. -/
def callEvents (callTool : String → Json → Except String ToolResult)
    (toolName : String) (params : Json) : List ClientAction :=
  [ClientAction.callToolAction toolName params,
   match callTool toolName params with
   | Except.ok response => ClientAction.printResult response
   | Except.error msg => ClientAction.printCallError msg]

/-- The interactive loop body (lines 124–141), driven by the list of
answers the user types (tool-name line, then arguments line, repeated).
A `quit` tool name (case-insensitive) breaks out before the arguments
question; an arguments line `jsonParse` rejects prints the invalid-JSON
notice and `continue`s to the next iteration without any tool call; an
accepted arguments object leads to one `callTool`, whose failure is
caught and printed, and the loop goes on.  An exhausted answer list ends
the trace. -/
def interactiveLoop (jsonParse : String → Option Json)
    (callTool : String → Json → Except String ToolResult) :
    List String → List ClientAction
  | [] => []
  | [_] => []
  | toolName :: paramsInput :: rest =>
      if jsToLower toolName = "quit" then []
      else
        match jsonParse (argumentsText paramsInput) with
        | none =>
            ClientAction.printInvalidJson ::
              interactiveLoop jsonParse callTool rest
        | some params =>
            callEvents callTool toolName params ++
              interactiveLoop jsonParse callTool rest

/-- `runInteractiveClient` (lines 108–146): connect, list tools, run
the loop, then `await client.close()` once the loop has returned. -/
def runInteractiveClient (jsonParse : String → Option Json)
    (callTool : String → Json → Except String ToolResult)
    (answers : List String) : List ClientAction :=
  [ClientAction.connect, ClientAction.listTools] ++
    interactiveLoop jsonParse callTool answers ++
    [ClientAction.closeAction]

/-- A client session: the transport and the spawned server subprocess
the client owns. -/
structure ClientSession where
  transportOpen : Bool
  subprocessAlive : Bool
deriving Repr, DecidableEq

/-- Modelled from the spec: the MCP SDK `Client.close` (the SDK is a
dependency, not code of this repository) — "`close` releases the
transport and, if the client owns a spawned subprocess, terminates it;
must be safe to call exactly once", and a second call "is a no-op, no
error raised".  Whatever state the session is in, `close` leaves both
resources released. -/
def closeSession (_s : ClientSession) : ClientSession :=
  { transportOpen := false, subprocessAlive := false }

/-! ## Concrete fixtures

Concrete inputs used to instantiate the theorems below: a params record
with one set, one null and one undefined field; the 401/unauthorized
and 200 stub responses of the spec's scenarios; and stub
`JSON.parse`/`callTool` functions for driving the interactive loop. -/

/-- A params record with a set field, a null field and an undefined
field. -/
def demoParams : List (String × JSVal) :=
  [("timezone", JSVal.str "UTC"), ("cursor", JSVal.null),
   ("limit", JSVal.undef)]

/-- The spec's stub response: HTTP 401 with body `unauthorized`. -/
def r401 : HttpResponse :=
  { status := 401, bodyText := "unauthorized", bodyJson := Json.null }

/-- A success stub response: HTTP 200 with an empty-object body. -/
def r200 : HttpResponse :=
  { status := 200, bodyText := "\x7b\x7d", bodyJson := Json.obj [] }

/-- A stub `JSON.parse` for driving the loop: accepts exactly the text
of the empty object. -/
def demoParse : String → Option Json :=
  fun s => if s = "\x7b\x7d" then some (Json.obj []) else none

/-- A stub server whose every call fails — the "prior call failed"
scenario. -/
def demoCallTool : String → Json → Except String ToolResult :=
  fun _ _ => Except.error "server unavailable"

/-- A call to `getLifelogs` with every schema key omitted. -/
def rawNoArgs : RawArgs := {}

/-- The validated params produced from `rawNoArgs`: every optional
field still absent, the three default-bearing fields filled in. -/
def defaultParams : LifelogParams :=
  { timezone := none, date := none, start := none, end' := none,
    cursor := none, direction := Direction.desc,
    includeMarkdown := true, includeHeadings := true, limit := none }

/-! # Theorems

First a block of shared helper lemmas, then one theorem per claim with
its witness. -/

/-- Every run of the digit printer with enough fuel starts with a
decimal digit character. -/
theorem natDigitsAux_head (fuel : Nat) :
    ∀ n acc, n < fuel →
      ∃ d t, d < 10 ∧ natDigitsAux fuel n acc = Nat.digitChar d :: t := by
  induction fuel with
  | zero => intro n acc h; omega
  | succ f ih =>
    intro n acc _
    by_cases h10 : n < 10
    · exact ⟨n, acc, h10, by simp [natDigitsAux, h10]⟩
    · have hrec : n / 10 < f := by omega
      obtain ⟨d, t, hd, ht⟩ := ih (n / 10) (Nat.digitChar (n % 10) :: acc) hrec
      exact ⟨d, t, hd, by simp [natDigitsAux, h10, ht]⟩

/-- `String(n)` for a natural number starts with a decimal digit. -/
theorem natToString_head (n : Nat) :
    ∃ d t, d < 10 ∧ (natToString n).data = Nat.digitChar d :: t := by
  obtain ⟨d, t, hd, ht⟩ := natDigitsAux_head (n + 1) n [] (Nat.lt_succ_self n)
  exact ⟨d, t, hd, ht⟩

/-- No decimal digit character is the letter `E`. -/
theorem digitChar_ne_upper_e : ∀ d, d < 10 → Nat.digitChar d ≠ 'E' := by decide

/-- Rendered JSON is nonempty and never starts with the letter `E`:
the head character is one of the brackets, a quote, `n`, `t`, `f`, a
digit or a minus sign. -/
theorem renderChars_head (ind : Nat) (j : Json) :
    ∃ c t, renderChars ind j = c :: t ∧ c ≠ 'E' := by
  cases j with
  | null => exact ⟨'n', "ull".data, by simp [renderChars], by decide⟩
  | bool b =>
    cases b with
    | false => exact ⟨'f', "alse".data, by simp [renderChars], by decide⟩
    | true => exact ⟨'t', "rue".data, by simp [renderChars], by decide⟩
  | num n =>
    cases n with
    | ofNat m =>
      obtain ⟨d, t, hd, ht⟩ := natToString_head m
      exact ⟨Nat.digitChar d, t, by simp [renderChars, intToString, ht],
        digitChar_ne_upper_e d hd⟩
    | negSucc m =>
      refine ⟨'-', (natToString (m + 1)).data, ?_, by decide⟩
      simp [renderChars, intToString, String.data_append]
  | str s =>
    exact ⟨'"', (s.data.map escapeChar).flatten ++ ['"'],
      by simp [renderChars, quoteChars], by decide⟩
  | arr elems =>
    cases elems with
    | nil => exact ⟨'[', "]".data, by simp [renderChars], by decide⟩
    | cons x xs =>
      refine ⟨'[', '\n' ::
        (sepJoin (",\n".data) (renderItems (ind + 1) (x :: xs)) ++
          '\n' :: (indentChars ind ++ [']'])), ?_, by decide⟩
      simp [renderChars]
  | obj fields =>
    cases fields with
    | nil => exact ⟨'\x7b', "\x7d".data, by simp [renderChars], by decide⟩
    | cons f fs =>
      refine ⟨'\x7b', '\n' ::
        (sepJoin (",\n".data) (renderFields (ind + 1) (f :: fs)) ++
          '\n' :: (indentChars ind ++ ['\x7d'])), ?_, by decide⟩
      simp [renderChars]

/-- `JSON.stringify(·, null, 2)` output never has the shape of the
handler's error text. -/
theorem stringifyPretty_ne_error (j : Json) (m : String) :
    stringifyPretty j ≠ "Error fetching lifelogs: " ++ m := by
  intro hEq
  have hdata := congrArg String.data hEq
  obtain ⟨c, t, hrc, hcne⟩ := renderChars_head 0 j
  rw [String.data_append] at hdata
  have hlhs : (stringifyPretty j).data = c :: t := by
    simpa [stringifyPretty] using hrc
  rw [hlhs] at hdata
  have hE : ("Error fetching lifelogs: ".data) =
      'E' :: "rror fetching lifelogs: ".data := by decide
  rw [hE] at hdata
  exact hcne (List.cons.injEq _ _ _ _ ▸ hdata |>.1)

/-- Every pair of the built query comes from a present field of the
params record, carrying its `String(value)` form. -/
theorem buildQuery_mem {params : List (String × JSVal)} {k : String}
    {s : String} (h : (k, s) ∈ buildQuery params) :
    ∃ v, (k, v) ∈ params ∧ present v = true ∧ s = jsString v := by
  induction params with
  | nil => simp [buildQuery] at h
  | cons kv rest ih =>
    obtain ⟨k', v⟩ := kv
    by_cases hp : present v
    · rw [buildQuery, if_pos hp] at h
      rcases List.mem_cons.mp h with hhead | htail
      · obtain ⟨hk, hs⟩ := Prod.mk.injEq .. ▸ hhead
        exact ⟨v, by simp [hk], hp, hs⟩
      · obtain ⟨w, hw, hwp, hws⟩ := ih htail
        exact ⟨w, List.mem_cons_of_mem _ hw, hwp, hws⟩
    · rw [buildQuery, if_neg hp] at h
      obtain ⟨w, hw, hwp, hws⟩ := ih h
      exact ⟨w, List.mem_cons_of_mem _ hw, hwp, hws⟩

/-- A key that is not in the params record is not in the built query
either. -/
theorem buildQuery_lookup_none {params : List (String × JSVal)}
    {k : String} (h : k ∉ params.map Prod.fst) :
    (buildQuery params).lookup k = none := by
  induction params with
  | nil => simp [buildQuery]
  | cons kv rest ih =>
    obtain ⟨k', v⟩ := kv
    simp only [List.map_cons, List.mem_cons] at h
    push_neg at h
    have hne : (k == k') = false := beq_eq_false_iff_ne.mpr h.1
    by_cases hp : present v
    · rw [buildQuery, if_pos hp]
      simp only [List.lookup, hne]
      exact ih h.2
    · rw [buildQuery, if_neg hp]
      exact ih h.2

/-- The pointwise characterization of the query built from a record
with distinct keys: looking up any key yields exactly the
`String(value)` form of a present field and nothing for an absent,
`null` or `undefined` one. -/
theorem buildQuery_lookup {params : List (String × JSVal)}
    (hkeys : (params.map Prod.fst).Nodup) (k : String) :
    (buildQuery params).lookup k =
      (params.lookup k).bind
        (fun v => if present v then some (jsString v) else none) := by
  induction params with
  | nil => simp [buildQuery]
  | cons kv rest ih =>
    obtain ⟨k', v⟩ := kv
    simp only [List.map_cons, List.nodup_cons] at hkeys
    by_cases hk : k = k'
    · subst hk
      by_cases hp : present v
      · rw [buildQuery, if_pos hp]
        simp [List.lookup, hp]
      · rw [buildQuery, if_neg hp]
        simp only [List.lookup, beq_self_eq_true, Option.some_bind]
        rw [if_neg hp, buildQuery_lookup_none hkeys.1]
    · rw [buildQuery]
      have hne : (k == k') = false := beq_eq_false_iff_ne.mpr hk
      by_cases hp : present v
      · rw [if_pos hp]
        simp only [List.lookup, hne]
        exact ih hkeys.2
      · rw [if_neg hp]
        simp only [List.lookup, hne]
        exact ih hkeys.2

/-- C1: for every Query Options record (distinct keys, as a JavaScript
object guarantees), the serialized query contains exactly the fields
whose values are present — not `null` and not `undefined` — each as its
plain `String(value)` form; an absent/`null`/`undefined` field
contributes no pair at all, so in particular never an empty or null
token. -/
theorem query_serializes_exactly_present_fields
    (params : List (String × JSVal))
    (hkeys : (params.map Prod.fst).Nodup) (k : String) :
    ((buildQuery params).lookup k =
      (params.lookup k).bind
        (fun v => if present v then some (jsString v) else none)) ∧
    (∀ s, (k, s) ∈ buildQuery params →
      ∃ v, (k, v) ∈ params ∧ present v = true ∧ s = jsString v) :=
  ⟨buildQuery_lookup hkeys k, fun _ h => buildQuery_mem h⟩

/-- Witness for C1 at the concrete record
`[(timezone, "UTC"), (cursor, null), (limit, undefined)]`: the set
field appears with its string form, the `null` and `undefined` fields
do not appear, and indeed the whole query is the single `timezone`
pair. -/
theorem query_serializes_exactly_present_fields_witness :
    (buildQuery demoParams).lookup "timezone" = some "UTC" ∧
    (buildQuery demoParams).lookup "cursor" = none ∧
    (buildQuery demoParams).lookup "limit" = none := by
  refine ⟨?_, ?_, ?_⟩
  · exact (query_serializes_exactly_present_fields demoParams (by decide)
      "timezone").1.trans (by decide)
  · exact (query_serializes_exactly_present_fields demoParams (by decide)
      "cursor").1.trans (by decide)
  · exact (query_serializes_exactly_present_fields demoParams (by decide)
      "limit").1.trans (by decide)

/-- C2: the Gateway request fails on every non-success status with a
message carrying the decimal status code and the body text verbatim —
indeed the message is exactly `Request failed: <status> <body>` — and
returns the JSON-parsed body on every success status. -/
theorem gateway_status_result (r : HttpResponse) :
    (responseOk r = true → makeLimitlessRequest r = Except.ok r.bodyJson) ∧
    (responseOk r = false →
      makeLimitlessRequest r =
        Except.error
          ("Request failed: " ++ natToString r.status ++ " " ++ r.bodyText) ∧
      ∃ pre mid, "Request failed: " ++ natToString r.status ++ " " ++ r.bodyText =
        pre ++ natToString r.status ++ mid ++ r.bodyText) := by
  constructor
  · intro h
    rw [makeLimitlessRequest, if_pos h]
  · intro h
    refine ⟨?_, "Request failed: ", " ", rfl⟩
    rw [makeLimitlessRequest, if_neg (by simp [h])]

/-- Witness for C2: the 401/unauthorized stub yields the failure with
the verbatim message, and the 200 stub yields the parsed body. -/
theorem gateway_status_result_witness :
    makeLimitlessRequest r401 = Except.error "Request failed: 401 unauthorized" ∧
    makeLimitlessRequest r200 = Except.ok (Json.obj []) := by
  constructor
  · exact ((gateway_status_result r401).2 rfl).1.trans rfl
  · exact (gateway_status_result r200).1 rfl

/-- A string contains another as a contiguous substring. -/
def containsSubstr (s pattern : String) : Prop :=
  ∃ a b, s = a ++ (pattern ++ b)

/-- C3: the `getLifelogs` handler is a total function of the Gateway
outcome — nothing escapes its boundary: a failure with message `m`
becomes the error-flagged Tool Result with text
`Error fetching lifelogs: ` + `m`, a success with document `d` becomes
the unflagged Tool Result with the pretty-printed JSON of `d`; and a
401 response with body `unauthorized` yields an error-flagged result
whose text contains `401` and `unauthorized`. -/
theorem getLifelogs_handler_spec :
    (∀ m, getLifelogsHandler (Except.error m) =
      ToolResult.mk ("Error fetching lifelogs: " ++ m) true) ∧
    (∀ d, getLifelogsHandler (Except.ok d) =
      ToolResult.mk (stringifyPretty d) false) ∧
    (∀ r : HttpResponse, r.status = 401 → r.bodyText = "unauthorized" →
      (handleGetLifelogs r).isError = true ∧
      containsSubstr (handleGetLifelogs r).text "401" ∧
      containsSubstr (handleGetLifelogs r).text "unauthorized") := by
  refine ⟨fun m => rfl, fun d => rfl, fun r hs hb => ?_⟩
  have hok : responseOk r = false := by simp [responseOk, hs]
  have htext : (handleGetLifelogs r).text =
      "Error fetching lifelogs: " ++
        ("Request failed: " ++ natToString r.status ++ " " ++ r.bodyText) := by
    rw [handleGetLifelogs, makeLimitlessRequest, if_neg (by simp [hok])]
    rfl
  have herr : (handleGetLifelogs r).isError = true := by
    rw [handleGetLifelogs, makeLimitlessRequest, if_neg (by simp [hok])]
    rfl
  rw [hs, hb] at htext
  refine ⟨herr, ⟨"Error fetching lifelogs: Request failed: ", " unauthorized",
    htext.trans (by decide)⟩,
    ⟨"Error fetching lifelogs: Request failed: 401 ", "",
      htext.trans (by decide)⟩⟩

/-- Witness for C3 at the 401/unauthorized stub response. -/
theorem getLifelogs_handler_spec_witness :
    (handleGetLifelogs r401).isError = true ∧
    containsSubstr (handleGetLifelogs r401).text "401" ∧
    containsSubstr (handleGetLifelogs r401).text "unauthorized" :=
  getLifelogs_handler_spec.2.2 r401 rfl rfl

/-- C4: success and failure Tool Results are mutually exclusive — for
every Gateway outcome the error flag is set if and only if the text has
the `Error fetching lifelogs: ...` form, and no result carries both a
success text and an error text: pretty-printed JSON never has the error
form. -/
theorem toolResult_success_failure_exclusive (outcome : Except String Json) :
    ((getLifelogsHandler outcome).isError = true ↔
      ∃ m, (getLifelogsHandler outcome).text =
        "Error fetching lifelogs: " ++ m) ∧
    ¬((getLifelogsHandler outcome).isError = false ∧
      ∃ m, (getLifelogsHandler outcome).text =
        "Error fetching lifelogs: " ++ m) := by
  cases outcome with
  | error m =>
    refine ⟨⟨fun _ => ⟨m, rfl⟩, fun _ => rfl⟩, ?_⟩
    rintro ⟨hflag, -⟩
    simp [getLifelogsHandler] at hflag
  | ok d =>
    constructor
    · constructor
      · intro hflag
        simp [getLifelogsHandler] at hflag
      · rintro ⟨m, hm⟩
        exact absurd hm (stringifyPretty_ne_error d m)
    · rintro ⟨-, m, hm⟩
      exact absurd hm (stringifyPretty_ne_error d m)

/-- Witness for C4 at a concrete failure outcome: the flag is set and
the text indeed has the error form. -/
theorem toolResult_success_failure_exclusive_witness :
    ∃ m, (getLifelogsHandler (Except.error "boom")).text =
      "Error fetching lifelogs: " ++ m :=
  (toolResult_success_failure_exclusive (Except.error "boom")).1.mp rfl

/-- A successful schema validation validates every field: in
particular the three default-bearing fields of the result are whatever
their zod parsers produced. -/
theorem getLifelogsSchema_ok_fields {a : RawArgs} {p : LifelogParams}
    (h : getLifelogsSchema a = Except.ok p) :
    zodDirection a.direction = Except.ok p.direction ∧
    zodBoolDefaultTrue a.includeMarkdown = Except.ok p.includeMarkdown ∧
    zodBoolDefaultTrue a.includeHeadings = Except.ok p.includeHeadings := by
  unfold getLifelogsSchema at h
  cases h1 : zodOptionalString a.timezone <;> rw [h1] at h
  · exact Except.noConfusion h
  · cases h2 : zodOptionalString a.date <;> rw [h2] at h
    · exact Except.noConfusion h
    · cases h3 : zodOptionalString a.start <;> rw [h3] at h
      · exact Except.noConfusion h
      · cases h4 : zodOptionalString a.end' <;> rw [h4] at h
        · exact Except.noConfusion h
        · cases h5 : zodOptionalString a.cursor <;> rw [h5] at h
          · exact Except.noConfusion h
          · cases h6 : zodDirection a.direction <;> rw [h6] at h
            · exact Except.noConfusion h
            · cases h7 : zodBoolDefaultTrue a.includeMarkdown <;> rw [h7] at h
              · exact Except.noConfusion h
              · cases h8 : zodBoolDefaultTrue a.includeHeadings <;> rw [h8] at h
                · exact Except.noConfusion h
                · cases h9 : zodOptionalNumber a.limit <;> rw [h9] at h
                  · exact Except.noConfusion h
                  · have h0 := Except.ok.inj h
                    rw [← h0]
                    exact ⟨rfl, rfl, rfl⟩

/-- C5: `direction`, when supplied, is accepted only as one of the two
enumerated strings `asc` and `desc` (with the matching result), it
defaults to `desc` when unspecified, and the two formatting flags
default to `true` when unspecified — both at the level of the field
parsers and through the whole schema. -/
theorem direction_enum_and_defaults :
    (∀ j d, zodDirection (some j) = Except.ok d →
      (j = Json.str "asc" ∧ d = Direction.asc) ∨
      (j = Json.str "desc" ∧ d = Direction.desc)) ∧
    zodDirection none = Except.ok Direction.desc ∧
    zodBoolDefaultTrue none = Except.ok true ∧
    (∀ (a : RawArgs) (p : LifelogParams),
      getLifelogsSchema a = Except.ok p →
      a.direction = none → a.includeMarkdown = none →
      a.includeHeadings = none →
      p.direction = Direction.desc ∧ p.includeMarkdown = true ∧
        p.includeHeadings = true) := by
  refine ⟨?_, rfl, rfl, ?_⟩
  · intro j d h
    cases j with
    | str s =>
      by_cases ha : s = "asc"
      · subst ha
        rw [zodDirection, if_pos rfl] at h
        exact Or.inl ⟨rfl, (Except.ok.inj h).symm⟩
      · by_cases hd : s = "desc"
        · subst hd
          rw [zodDirection, if_neg (by decide), if_pos rfl] at h
          exact Or.inr ⟨rfl, (Except.ok.inj h).symm⟩
        · rw [zodDirection, if_neg ha, if_neg hd] at h
          exact Except.noConfusion h
    | null => exact Except.noConfusion h
    | bool b => exact Except.noConfusion h
    | num n => exact Except.noConfusion h
    | arr elems => exact Except.noConfusion h
    | obj fields => exact Except.noConfusion h
  · intro a p h hdir hmk hhd
    obtain ⟨h6, h7, h8⟩ := getLifelogsSchema_ok_fields h
    rw [hdir] at h6
    rw [hmk] at h7
    rw [hhd] at h8
    exact ⟨(Except.ok.inj h6).symm, (Except.ok.inj h7).symm,
      (Except.ok.inj h8).symm⟩

/-- Witness for C5: validating the all-omitted argument object yields
exactly the defaulted params. -/
theorem direction_enum_and_defaults_witness :
    defaultParams.direction = Direction.desc ∧
    defaultParams.includeMarkdown = true ∧
    defaultParams.includeHeadings = true :=
  direction_enum_and_defaults.2.2.2 rawNoArgs defaultParams rfl rfl rfl rfl

/-- The query built from any validated params record carries the three
default-bearing keys, whatever the optional fields are. -/
theorem paramsEntries_default_keys (p : LifelogParams) :
    (buildQuery (paramsEntries p)).lookup "direction" =
      some p.direction.toStr ∧
    (buildQuery (paramsEntries p)).lookup "includeMarkdown" =
      some (jsString (JSVal.bool p.includeMarkdown)) ∧
    (buildQuery (paramsEntries p)).lookup "includeHeadings" =
      some (jsString (JSVal.bool p.includeHeadings)) := by
  obtain ⟨tz, date, start, e, cur, dir, im, ih, lim⟩ := p
  cases tz <;> cases date <;> cases start <;> cases e <;> cases cur <;>
    cases lim <;>
    simp [paramsEntries, buildQuery, present, optStrVal, optNumVal,
      jsString, List.lookup]

/-- C9: after schema validation the outgoing query always contains the
keys `direction`, `includeMarkdown` and `includeHeadings` — for every
validated params record they are present fields, and when the caller
omitted all three the query carries their defaults `desc`, `true`,
`true`. -/
theorem validated_query_always_has_defaults :
    (∀ p : LifelogParams,
      (buildQuery (paramsEntries p)).lookup "direction" =
        some p.direction.toStr ∧
      (buildQuery (paramsEntries p)).lookup "includeMarkdown" =
        some (jsString (JSVal.bool p.includeMarkdown)) ∧
      (buildQuery (paramsEntries p)).lookup "includeHeadings" =
        some (jsString (JSVal.bool p.includeHeadings))) ∧
    (∀ (a : RawArgs) (p : LifelogParams),
      getLifelogsSchema a = Except.ok p →
      a.direction = none → a.includeMarkdown = none →
      a.includeHeadings = none →
      (buildQuery (paramsEntries p)).lookup "direction" = some "desc" ∧
      (buildQuery (paramsEntries p)).lookup "includeMarkdown" =
        some "true" ∧
      (buildQuery (paramsEntries p)).lookup "includeHeadings" =
        some "true") := by
  refine ⟨paramsEntries_default_keys, ?_⟩
  intro a p h hdir hmk hhd
  obtain ⟨h6, h7, h8⟩ := getLifelogsSchema_ok_fields h
  rw [hdir] at h6
  rw [hmk] at h7
  rw [hhd] at h8
  have hpd : p.direction = Direction.desc := (Except.ok.inj h6).symm
  have hpm : p.includeMarkdown = true := (Except.ok.inj h7).symm
  have hph : p.includeHeadings = true := (Except.ok.inj h8).symm
  obtain ⟨l1, l2, l3⟩ := paramsEntries_default_keys p
  rw [hpd] at l1
  rw [hpm] at l2
  rw [hph] at l3
  exact ⟨l1, l2, l3⟩

/-- Witness for C9: a call that omits every argument still produces a
query with the three defaulted keys. -/
theorem validated_query_always_has_defaults_witness :
    (buildQuery (paramsEntries defaultParams)).lookup "direction" =
      some "desc" ∧
    (buildQuery (paramsEntries defaultParams)).lookup "includeMarkdown" =
      some "true" ∧
    (buildQuery (paramsEntries defaultParams)).lookup "includeHeadings" =
      some "true" :=
  validated_query_always_has_defaults.2 rawNoArgs defaultParams rfl rfl rfl rfl

/-- C6: when the environment carries no API key, module load ends in
the fatal diagnostic with exit status 1 — whatever the requested mode —
and in particular no server, client or interactive run is ever
entered. -/
theorem missing_api_key_fatal (env : List (String × String))
    (h : env.lookup "LIMITLESS_API_KEY" = none) (argv2 : Option String) :
    mainDispatch env argv2 =
      MainAction.exitError 1
        "Missing LIMITLESS_API_KEY in environment variables" ∧
    (∀ k, mainDispatch env argv2 ≠ MainAction.serverMode k ∧
      mainDispatch env argv2 ≠ MainAction.clientMode k ∧
      mainDispatch env argv2 ≠ MainAction.interactiveMode k) := by
  have hmain : mainDispatch env argv2 =
      MainAction.exitError 1
        "Missing LIMITLESS_API_KEY in environment variables" := by
    rw [mainDispatch, h]
  refine ⟨hmain, fun k => ⟨?_, ?_, ?_⟩⟩ <;> rw [hmain] <;>
    exact fun hc => MainAction.noConfusion hc

/-- Witness for C6: an empty environment with mode `server` still
exits 1 with the diagnostic. -/
theorem missing_api_key_fatal_witness :
    mainDispatch [] (some "server") =
      MainAction.exitError 1
        "Missing LIMITLESS_API_KEY in environment variables" :=
  (missing_api_key_fatal [] rfl (some "server")).1

/-- C7: an arguments line `JSON.parse` rejects produces exactly the
invalid-JSON notice for that iteration — no tool call — and the loop
goes on with the remaining input; any tool call in the whole trace
comes from a later iteration. -/
theorem invalid_json_reported_loop_continues
    (jsonParse : String → Option Json)
    (callTool : String → Json → Except String ToolResult)
    (toolName paramsInput : String) (rest : List String)
    (hq : jsToLower toolName ≠ "quit")
    (hbad : jsonParse (argumentsText paramsInput) = none) :
    interactiveLoop jsonParse callTool (toolName :: paramsInput :: rest) =
      ClientAction.printInvalidJson ::
        interactiveLoop jsonParse callTool rest ∧
    (∀ n args,
      ClientAction.callToolAction n args ∈
        interactiveLoop jsonParse callTool
          (toolName :: paramsInput :: rest) →
      ClientAction.callToolAction n args ∈
        interactiveLoop jsonParse callTool rest) := by
  have heq : interactiveLoop jsonParse callTool
      (toolName :: paramsInput :: rest) =
      ClientAction.printInvalidJson ::
        interactiveLoop jsonParse callTool rest := by
    simp only [interactiveLoop]
    rw [if_neg hq, hbad]
  refine ⟨heq, fun n args hmem => ?_⟩
  rw [heq] at hmem
  rcases List.mem_cons.mp hmem with hc | hm
  · exact ClientAction.noConfusion hc
  · exact hm

/-- Witness for C7: the `not-json` arguments line of the spec's
scenario yields only the invalid-JSON notice, and the loop then reaches
the `quit` prompt. -/
theorem invalid_json_reported_loop_continues_witness :
    interactiveLoop demoParse demoCallTool
      ["getLifelogs", "not-json", "quit"] =
      [ClientAction.printInvalidJson] :=
  (invalid_json_reported_loop_continues demoParse demoCallTool
    "getLifelogs" "not-json" ["quit"] (by decide) rfl).1.trans rfl

/-- C10: an empty arguments line is handed to `JSON.parse` as the text
of the empty object, so — for any parser that accepts that text as the
empty object, as `JSON.parse` does — the tool is invoked with the empty
object rather than the input being rejected. -/
theorem empty_arguments_line_is_empty_object
    (jsonParse : String → Option Json)
    (callTool : String → Json → Except String ToolResult)
    (toolName : String) (rest : List String)
    (hq : jsToLower toolName ≠ "quit")
    (hparse : jsonParse "\x7b\x7d" = some (Json.obj [])) :
    interactiveLoop jsonParse callTool (toolName :: "" :: rest) =
      callEvents callTool toolName (Json.obj []) ++
        interactiveLoop jsonParse callTool rest := by
  simp only [interactiveLoop]
  rw [if_neg hq]
  have hargs : argumentsText "" = "\x7b\x7d" := rfl
  rw [hargs, hparse]

/-- Witness for C10: the empty arguments line leads to a call of
`getLifelogs` with `Json.obj []`, whose (stubbed) failure is caught and
printed. -/
theorem empty_arguments_line_is_empty_object_witness :
    interactiveLoop demoParse demoCallTool ["getLifelogs", "", "quit"] =
      [ClientAction.callToolAction "getLifelogs" (Json.obj []),
       ClientAction.printCallError "server unavailable"] :=
  (empty_arguments_line_is_empty_object demoParse demoCallTool
    "getLifelogs" ["quit"] (by decide) rfl).trans rfl

/-- C8: in both client modes the trace ends with the session close —
also when the call failed, since `callTool` is universally quantified
over outcomes (and the stub of the witness below always fails) — and
closing an already-closed session changes nothing and, being a total
function, raises nothing. -/
theorem close_always_runs :
    (∀ callTool,
      (runClient callTool).getLast? = some ClientAction.closeAction) ∧
    (∀ jsonParse callTool answers,
      (runInteractiveClient jsonParse callTool answers).getLast? =
        some ClientAction.closeAction) ∧
    (∀ s, closeSession (closeSession s) = closeSession s) := by
  refine ⟨fun callTool => ?_, fun jsonParse callTool answers => ?_,
    fun s => rfl⟩
  · rw [runClient, List.getLast?_concat]
  · rw [runInteractiveClient, List.getLast?_concat]

end Limitless
